import Mathlib

/-!
Shallow embedding of the fitness-platform backend (FastAPI + MongoDB).

The embedding covers the registration / progress / leaderboard slice:
  * `register_for_event`, `unregister_from_event`
      (src/backend/app/api/endpoints/events.py),
  * `create_progress_endpoint` (src/backend/app/api/endpoints/progress.py)
      together with `ProgressService.create_progress`,
  * `ProgressService.update_progress`, `ProgressService.get_progress`,
      `ProgressService.get_leaderboard`
      (src/backend/app/services/progress_service.py),
  * `UserService.create_user`, `UserService.get_user`,
      `UserService._generate_unique_bib_number`
      (src/backend/app/services/user_service.py),
  * `EventService.get_event` and the `get_event` endpoint
      (src/backend/app/services/event_service.py, endpoints/events.py).

Conventions of the embedding:
  * The Mongo database is a `DB` record of three document lists.  A Mongo
    `update_one` touches the first matching document (`updateFirst`); with a
    filter on `_id` this is exact.
  * An HTTP error raised by the code is an `HErr` value; a mutating request
    returns `Except HErr α × DB`, the second component being the state of the
    store when the response is produced.  Every `raise HTTPException` in the
    source happens before any write on these paths, so error results carry
    the unchanged store.
  * `datetime` values are modelled as `Nat` instants; `float` kilometres and
    `int` minutes are modelled as exact `Int` values.
  * `random.choices(string.digits, k=4)` is modelled by drawing from an
    explicit seed list: seed `n` yields the 4-character decimal rendering of
    `n % 10000` (`toBib`), exactly the value space of the Python expression.
-/

deriving instance DecidableEq for Except

/-- An `HTTPException`: status code and detail message. -/
structure HErr where
  status : Nat
  detail : String
deriving DecidableEq, Repr

/-- A character allowed in a BSON ObjectId hex string. -/
def isHexChar (c : Char) : Bool :=
  c.isDigit || (('a' ≤ c) && (c ≤ 'f')) || (('A' ≤ c) && (c ≤ 'F'))

/-- `bson.ObjectId.is_valid` on strings: a 24-character hex string. -/
def isValidObjectId (s : String) : Bool :=
  s.length == 24 && s.toList.all isHexChar

/-- A user document (`users` collection, models/user.py `UserInDB`).
`uid` is the Mongo `_id` rendered as a string (`str(user.id)`). -/
structure UserDoc where
  uid : String
  email : String
  first_name : String
  last_name : String
  full_name : Option String
  firebase_uid : String
  is_admin : Bool
  contact_number : String
  age_category : String
  city : String
  state : String
  country : String
  bib_number : Option String
  registered_events : List String
  created_at : Nat
  updated_at : Option Nat
deriving DecidableEq, Repr

/-- An event document (`events` collection, models/event.py `EventInDB`). -/
structure EventDoc where
  eid : String
  name : String
  description : String
  event_type : String
  start_date : Nat
  end_date : Nat
  target_distance : Option Int
  target_time : Option Int
  created_by : String
  participants : List String
  created_at : Nat
  updated_at : Option Nat
deriving DecidableEq, Repr

/-- A progress document (`progress` collection, models/progress.py
`ProgressInDB`).  `user_id` is `Optional[str]` in the model. -/
structure ProgressDoc where
  pid : String
  event_id : String
  user_id : Option String
  distance : Option Int
  time : Option Int
  notes : Option String
  date : String
  created_at : Nat
  updated_at : Option Nat
deriving DecidableEq, Repr

/-- The document store: one list per collection. -/
structure DB where
  users : List UserDoc
  events : List EventDoc
  progress : List ProgressDoc
deriving DecidableEq, Repr

/-- `update_one`: apply `f` to the first element satisfying `p`
(a Mongo `_id` filter matches at most one document). -/
def updateFirst (p : α → Bool) (f : α → α) : List α → List α
  | [] => []
  | x :: xs => if p x then f x :: xs else x :: updateFirst p f xs

/-- Mongo `$addToSet`: append the value unless already present. -/
def addToSet (v : String) (l : List String) : List String :=
  if v ∈ l then l else l ++ [v]

/-- Mongo `$pull`: remove every occurrence of the value. -/
def pull (v : String) (l : List String) : List String :=
  l.filter (fun x => x ≠ v)

/-- The `$addToSet` write of `register_for_event` on the event document. -/
def addParticipant (uid : String) (e : EventDoc) : EventDoc :=
  { e with participants := addToSet uid e.participants }

/-- The `$pull` write of `unregister_from_event` on the event document. -/
def removeParticipant (uid : String) (e : EventDoc) : EventDoc :=
  { e with participants := pull uid e.participants }

/-- The authenticated caller as returned by `get_current_user`
(core/firebase_auth.py): `uid` is the **Firebase** uid from the decoded
token, not the Mongo `_id`. -/
structure AuthUser where
  uid : String
  email : String
  is_admin : Bool
deriving DecidableEq, Repr

/-- Find an event by id (`events_collection.find_one({"_id": ...})`). -/
def DB.findEvent (db : DB) (event_id : String) : Option EventDoc :=
  db.events.find? (fun e => e.eid == event_id)

/-- Find a user by Firebase uid (`UserService.get_user_by_firebase_uid`). -/
def DB.findUserByFirebaseUid (db : DB) (fuid : String) : Option UserDoc :=
  db.users.find? (fun u => u.firebase_uid == fuid)

/-- Find a progress document by id. -/
def DB.findProgress (db : DB) (progress_id : String) : Option ProgressDoc :=
  db.progress.find? (fun e => e.pid == progress_id)

/-- endpoints/events.py `register_for_event` (lines 121-150): validate the
id, load the event, reject a caller already in `participants`, otherwise
`$addToSet` the caller's (Firebase) uid into `participants`. -/
def register_for_event (db : DB) (caller_uid : String) (event_id : String) :
    Except HErr Unit × DB :=
  if ¬ isValidObjectId event_id then
    (.error ⟨400, "Invalid event ID format"⟩, db)
  else
    match db.findEvent event_id with
    | none => (.error ⟨404, "Event not found"⟩, db)
    | some ev =>
      if caller_uid ∈ ev.participants then
        (.error ⟨400, "User is already registered for this event"⟩, db)
      else
        (.ok (),
          { db with events := updateFirst (fun e => e.eid == event_id) (addParticipant caller_uid) db.events })

/-- endpoints/events.py `unregister_from_event` (lines 152-181): validate,
load, reject a caller not in `participants`, otherwise `$pull` the caller's
uid from `participants`. -/
def unregister_from_event (db : DB) (caller_uid : String) (event_id : String) :
    Except HErr Unit × DB :=
  if ¬ isValidObjectId event_id then
    (.error ⟨400, "Invalid event ID format"⟩, db)
  else
    match db.findEvent event_id with
    | none => (.error ⟨404, "Event not found"⟩, db)
    | some ev =>
      if caller_uid ∉ ev.participants then
        (.error ⟨400, "User is not registered for this event"⟩, db)
      else
        (.ok (),
          { db with events := updateFirst (fun e => e.eid == event_id) (removeParticipant caller_uid) db.events })

/-- endpoints/events.py `get_event` (lines 48-67): 400 on a malformed id,
404 when absent, otherwise the document. -/
def get_event_endpoint (db : DB) (event_id : String) : Except HErr EventDoc :=
  if ¬ isValidObjectId event_id then
    .error ⟨400, "Invalid event ID format"⟩
  else
    match db.findEvent event_id with
    | none => .error ⟨404, "Event not found"⟩
    | some ev => .ok ev

/-- services/event_service.py `EventService.get_event` (lines 27-36):
400 on a malformed id, `None` when absent. -/
def EventService_get_event (db : DB) (event_id : String) :
    Except HErr (Option EventDoc) :=
  if ¬ isValidObjectId event_id then
    .error ⟨400, "Invalid event ID format"⟩
  else
    .ok (db.findEvent event_id)

/-- services/user_service.py `UserService.get_user` (lines 76-85):
400 on a malformed id, `None` when absent. -/
def UserService_get_user (db : DB) (user_id : String) :
    Except HErr (Option UserDoc) :=
  if ¬ isValidObjectId user_id then
    .error ⟨400, "Invalid user ID format"⟩
  else
    .ok (db.users.find? (fun u => u.uid == user_id))

/-- services/progress_service.py `ProgressService.get_progress`
(lines 37-46): 400 on a malformed id, `None` when absent. -/
def ProgressService_get_progress (db : DB) (progress_id : String) :
    Except HErr (Option ProgressDoc) :=
  if ¬ isValidObjectId progress_id then
    .error ⟨400, "Invalid progress ID format"⟩
  else
    .ok (db.findProgress progress_id)

/-- The request body of `POST /progress/` (models/progress.py
`ProgressCreate`); `user_id` is optional and set by the endpoint. -/
structure ProgressCreate where
  event_id : String
  user_id : Option String
  distance : Option Int
  time : Option Int
  notes : Option String
  date : String
deriving DecidableEq, Repr

/-- Python `x in list` where `x` is an `Optional[str]`: `None` is never a
member of a list of strings. -/
def optMem (x : Option String) (l : List String) : Bool :=
  match x with
  | none => false
  | some v => v ∈ l

/-- services/progress_service.py `ProgressService.create_progress`
(lines 15-34): load the event through `EventService.get_event` (400 on a
malformed id), 404 when absent, 400 when `progress.user_id` is not in the
event's `participants`, otherwise insert the entry with a server-assigned
`created_at`.  `now` is the clock reading and `new_id` the `_id` Mongo
assigns to the inserted document. -/
def ProgressService_create_progress (db : DB) (p : ProgressCreate)
    (now : Nat) (new_id : String) : Except HErr ProgressDoc × DB :=
  if ¬ isValidObjectId p.event_id then
    (.error ⟨400, "Invalid event ID format"⟩, db)
  else
    match db.findEvent p.event_id with
    | none => (.error ⟨404, "Event not found"⟩, db)
    | some ev =>
      if ¬ optMem p.user_id ev.participants then
        (.error ⟨400, "User is not registered for this event"⟩, db)
      else
        let doc : ProgressDoc :=
          { pid := new_id, event_id := p.event_id, user_id := p.user_id,
            distance := p.distance, time := p.time, notes := p.notes,
            date := p.date, created_at := now, updated_at := none }
        (.ok doc, { db with progress := db.progress ++ [doc] })

/-- endpoints/progress.py `create_progress` (lines 10-26): resolve the
caller's profile by Firebase uid (404 when absent), overwrite
`progress.user_id` with `str(user.id)`, then delegate to the service. -/
def create_progress_endpoint (db : DB) (caller : AuthUser)
    (body : ProgressCreate) (now : Nat) (new_id : String) :
    Except HErr ProgressDoc × DB :=
  match db.findUserByFirebaseUid caller.uid with
  | none => (.error ⟨404, "User not found"⟩, db)
  | some u =>
      ProgressService_create_progress db { body with user_id := some u.uid } now new_id

/-- The request body of `PUT /progress/{id}` (models/progress.py
`ProgressUpdate`): every field optional. -/
structure ProgressUpdate where
  distance : Option Int
  time : Option Int
  notes : Option String
  date : Option String
deriving DecidableEq, Repr

/-- The `$set` document built by `update_progress`: the fields of the patch
that are not `None`, plus a fresh `updated_at`. -/
def applyProgressPatch (e : ProgressDoc) (up : ProgressUpdate) (now : Nat) :
    ProgressDoc :=
  { e with
    distance := if up.distance.isSome then up.distance else e.distance,
    time := if up.time.isSome then up.time else e.time,
    notes := if up.notes.isSome then up.notes else e.notes,
    date := (up.date.getD e.date),
    updated_at := some now }

/-- services/progress_service.py `ProgressService.update_progress`
(lines 49-71): 400 on a malformed id, 400 when the patch has no non-`None`
field, otherwise `$set` the provided fields plus `updated_at := now` on the
matching document; when `modified_count == 0` (no document matched, or the
`$set` changed nothing) return `None`, else return the updated document. -/
def ProgressService_update_progress (db : DB) (progress_id : String)
    (up : ProgressUpdate) (now : Nat) : Except HErr (Option ProgressDoc) × DB :=
  if ¬ isValidObjectId progress_id then
    (.error ⟨400, "Invalid progress ID format"⟩, db)
  else
    if up.distance = none ∧ up.time = none ∧ up.notes = none ∧ up.date = none then
      (.error ⟨400, "No valid update data provided"⟩, db)
    else
      match db.findProgress progress_id with
      | none => (.ok none, db)
      | some e =>
        let e' := applyProgressPatch e up now
        if e' = e then
          (.ok none, db)
        else
          (.ok (some e'),
            { db with progress := updateFirst (fun d => d.pid == progress_id) (fun _ => e') db.progress })

/-- The request body for user creation (models/user.py `UserCreate`). -/
structure UserCreate where
  email : String
  first_name : String
  last_name : String
  full_name : Option String
  firebase_uid : String
  is_admin : Bool
  contact_number : String
  age_category : String
  city : String
  state : String
  country : String
  bib_number : Option String
deriving DecidableEq, Repr

/-- Python truthiness of an `Optional[str]`: `None` and `""` are falsy. -/
def strTruthy (s : Option String) : Bool :=
  match s with
  | none => false
  | some v => v ≠ ""

/-- The 4-character string produced by one draw of
`''.join(random.choices(string.digits, k=4))`, with the randomness supplied
as a seed `n`: the decimal rendering of `n % 10000` padded to 4 digits. -/
def toBib (n : Nat) : String :=
  let m := n % 10000
  String.mk [Nat.digitChar (m / 1000), Nat.digitChar (m / 100 % 10),
             Nat.digitChar (m / 10 % 10), Nat.digitChar (m % 10)]

/-- services/user_service.py `UserService._generate_unique_bib_number`
(lines 52-64): draw 4-digit strings until one is not already a `bib_number`
in the users collection.  The unbounded `while True` is modelled by a finite
seed list; `none` means the modelled randomness was exhausted. -/
def generate_unique_bib_number (db : DB) : List Nat → Option String
  | [] => none
  | s :: rest =>
    if db.users.any (fun u => u.bib_number == some (toBib s)) then
      generate_unique_bib_number db rest
    else
      some (toBib s)

/-- The user document `UserService.create_user` inserts: profile fields from
the payload, `full_name` derived from first/last name when unset (Python
truthiness: `None` or `""`), the drawn bib number, an empty
`registered_events` list, `created_at := now` and Mongo-assigned `new_id`. -/
def mkNewUser (u : UserCreate) (bib : String) (now : Nat) (new_id : String) : UserDoc :=
  { uid := new_id, email := u.email, first_name := u.first_name,
    last_name := u.last_name,
    full_name :=
      if ¬ strTruthy u.full_name ∧ u.first_name ≠ "" ∧ u.last_name ≠ "" then
        some (u.first_name ++ " " ++ u.last_name)
      else u.full_name,
    firebase_uid := u.firebase_uid, is_admin := u.is_admin,
    contact_number := u.contact_number, age_category := u.age_category,
    city := u.city, state := u.state, country := u.country,
    bib_number := some bib, registered_events := [],
    created_at := now, updated_at := none }

/-- services/user_service.py `UserService.create_user` (lines 16-50): return
the existing profile when the Firebase uid is already present; 400 when the
email belongs to another profile; otherwise derive `full_name` when unset,
draw a unique bib number, and insert the document with `created_at := now`,
an empty `registered_events` list and Mongo-assigned id `new_id`. -/
def UserService_create_user (db : DB) (u : UserCreate) (seeds : List Nat)
    (now : Nat) (new_id : String) : Except HErr UserDoc × DB :=
  match db.findUserByFirebaseUid u.firebase_uid with
  | some existing => (.ok existing, db)
  | none =>
    match db.users.find? (fun x => x.email == u.email) with
    | some _ => (.error ⟨400, "User with this email already exists"⟩, db)
    | none =>
      match generate_unique_bib_number db seeds with
      | none => (.error ⟨500, "bib number generation exhausted its randomness"⟩, db)
      | some bib =>
        (.ok (mkNewUser u bib now new_id),
          { db with users := db.users ++ [mkNewUser u bib now new_id] })

/-- One user-creation request: the payload, the randomness consumed by bib
generation, the clock reading, and the id Mongo assigns on insertion. -/
structure CreateOp where
  payload : UserCreate
  seeds : List Nat
  now : Nat
  new_id : String
deriving Repr

/-- Run a sequence of `UserService.create_user` calls, threading the store
(failed calls leave the store as they found it). -/
def applyCreates (db : DB) : List CreateOp → DB
  | [] => db
  | op :: rest =>
      applyCreates (UserService_create_user db op.payload op.seeds op.now op.new_id).2 rest

/-- One group produced by the leaderboard aggregation `$group` stage:
per-user sums of `distance` and `time` and the maximum `created_at`. -/
structure AggRow where
  user_id : Option String
  total_distance : Int
  total_time : Int
  last_update : Nat
deriving DecidableEq, Repr

/-- One step of the streaming `$group`: fold the entry into its user's row,
appending a fresh row for a user not seen before.  `$sum` skips missing
(BSON null) values, so an absent `distance`/`time` contributes 0. -/
def aggStep (acc : List AggRow) (e : ProgressDoc) : List AggRow :=
  if acc.any (fun r => r.user_id == e.user_id) then
    acc.map (fun r =>
      if r.user_id == e.user_id then
        { r with total_distance := r.total_distance + e.distance.getD 0,
                 total_time := r.total_time + e.time.getD 0,
                 last_update := max r.last_update e.created_at }
      else r)
  else
    acc ++ [{ user_id := e.user_id, total_distance := e.distance.getD 0,
              total_time := e.time.getD 0, last_update := e.created_at }]

/-- The `$group` stage of the leaderboard pipeline over the matched entries
(groups listed in order of first appearance). -/
def aggregate (es : List ProgressDoc) : List AggRow :=
  es.foldl aggStep []

/-- Python truthiness of the event's `Optional[float]` target:
`if event.target_distance:` is false for `None` **and** for `0`. -/
def pyTruthy (x : Option Int) : Bool :=
  match x with
  | none => false
  | some v => v ≠ 0

/-- The sort order `{key: -1, last_update: 1}`: `a` strictly precedes `b`
when its key is larger, or on equal keys when its `last_update` is smaller. -/
def rowLt (key : AggRow → Int) (a b : AggRow) : Bool :=
  key b < key a || (key a == key b && a.last_update < b.last_update)

/-- Insert a row into a sorted list, after any row it does not strictly
precede (a stable sort). -/
def insertRow (key : AggRow → Int) (a : AggRow) : List AggRow → List AggRow
  | [] => [a]
  | b :: bs => if rowLt key a b then a :: b :: bs else b :: insertRow key a bs

/-- The `$sort` stage: stable sort by descending key, ties by ascending
`last_update`. -/
def sortRows (key : AggRow → Int) : List AggRow → List AggRow
  | [] => []
  | a :: rs => insertRow key a (sortRows key rs)

/-- A leaderboard response row. -/
structure RankRow where
  rank : Nat
  user_id : Option String
  total_distance : Int
  total_time : Int
  last_update : Nat
deriving DecidableEq, Repr

/-- The `rank = 1; rank += 1` loop over the sorted cursor. -/
def assignRanks (n : Nat) : List AggRow → List RankRow
  | [] => []
  | r :: rs =>
      { rank := n, user_id := r.user_id, total_distance := r.total_distance,
        total_time := r.total_time, last_update := r.last_update }
      :: assignRanks (n + 1) rs

/-- services/progress_service.py `ProgressService.get_leaderboard`
(lines 114-156): validate the id, load the event (404 when absent), match
the event's progress entries, `$group` by user, `$sort` by
`total_distance` when `event.target_distance` is truthy and by `total_time`
otherwise, and number the rows from 1. -/
def ProgressService_get_leaderboard (db : DB) (event_id : String) :
    Except HErr (List RankRow) :=
  if ¬ isValidObjectId event_id then
    .error ⟨400, "Invalid event ID format"⟩
  else
    match db.findEvent event_id with
    | none => .error ⟨404, "Event not found"⟩
    | some ev =>
      let rows := aggregate (db.progress.filter (fun e => e.event_id == event_id))
      let sorted :=
        if pyTruthy ev.target_distance then
          sortRows (fun r => r.total_distance) rows
        else
          sortRows (fun r => r.total_time) rows
      .ok (assignRanks 1 sorted)

/-- Modelled from the spec: the user ids occurring among the entries, in
order of first appearance (the grouping keys of §4.4 step 2). -/
def keysOf (es : List ProgressDoc) : List (Option String) :=
  es.foldl (fun ks e => if e.user_id ∈ ks then ks else ks ++ [e.user_id]) []

/-- Modelled from the spec (§4.4 step 2): one user's group, computed over
the whole entry list — `distance` and `time` summed independently with
missing values treated as 0, `last_update` the maximum entry-creation
timestamp of the group. -/
def specRowFor (es : List ProgressDoc) (u : Option String) : AggRow :=
  let g := es.filter (fun e => e.user_id == u)
  { user_id := u,
    total_distance := (g.map (fun e => e.distance.getD 0)).sum,
    total_time := (g.map (fun e => e.time.getD 0)).sum,
    last_update := (g.map (fun e => e.created_at)).foldr max 0 }

/-- Modelled from the spec (§4.4 step 2): the grouped entries. -/
def specAggregate (es : List ProgressDoc) : List AggRow :=
  (keysOf es).map (specRowFor es)

/-- Modelled from the spec (§4.4 steps 2-4, claim wording): the reference
leaderboard for an existing event — group, then rank by descending total
distance **when the event declares a target distance** and by descending
total time otherwise (ties by ascending `last_update`), then number 1..N.
The spec fixes the comparator, not the sorting algorithm, so the sort and
rank-numbering helpers are shared with the code model. -/
def leaderboardSpec (db : DB) (ev : EventDoc) : List RankRow :=
  let es := db.progress.filter (fun e => e.event_id == ev.eid)
  let sorted :=
    if ev.target_distance.isSome then
      sortRows (fun r => r.total_distance) (specAggregate es)
    else
      sortRows (fun r => r.total_time) (specAggregate es)
  assignRanks 1 sorted

/-- The reference leaderboard with the one amendment the code forces: the
distance metric is chosen only for a **nonzero** declared target distance
(`if event.target_distance:` is Python truthiness, so a declared target of
0 km ranks by total time). -/
def leaderboardSpecAmended (db : DB) (ev : EventDoc) : List RankRow :=
  let es := db.progress.filter (fun e => e.event_id == ev.eid)
  let sorted :=
    if pyTruthy ev.target_distance then
      sortRows (fun r => r.total_distance) (specAggregate es)
    else
      sortRows (fun r => r.total_time) (specAggregate es)
  assignRanks 1 sorted

/-- A 4-digit bib string: length 4, digits only. -/
def isBibStr (b : String) : Bool :=
  b.length == 4 && b.toList.all Char.isDigit

/-- A present, well-formed bib number. -/
def bibOk (o : Option String) : Bool :=
  match o with
  | none => false
  | some b => isBibStr b

/-- The participant-number invariant: every user carries a 4-digit bib and
no two users carry the same one. -/
def BibsOk (db : DB) : Prop :=
  (∀ u ∈ db.users, bibOk u.bib_number = true) ∧
  (db.users.map (fun u => u.bib_number)).Nodup

/-- A valid ObjectId string used by concrete instances. -/
def idA : String := "aaaaaaaaaaaaaaaaaaaaaaaa"

/-- A second valid ObjectId string. -/
def idB : String := "bbbbbbbbbbbbbbbbbbbbbbbb"

/-- A third valid ObjectId string. -/
def idC : String := "cccccccccccccccccccccccc"

/-- A concrete user profile: internal id `idA`, Firebase uid
`"firebase-uid-1"` (a Firebase uid is not an ObjectId string). -/
def sampleUser : UserDoc :=
  { uid := idA, email := "ada@example.com", first_name := "Ada",
    last_name := "Lovelace", full_name := some "Ada Lovelace",
    firebase_uid := "firebase-uid-1", is_admin := false,
    contact_number := "1234", age_category := "18-35", city := "London",
    state := "LDN", country := "UK", bib_number := some "0001",
    registered_events := [], created_at := 0, updated_at := none }

/-- A concrete event with id `idB`, no participants yet. -/
def sampleEvent : EventDoc :=
  { eid := idB, name := "Spring run", description := "10k", event_type := "running",
    start_date := 0, end_date := 100, target_distance := some 10,
    target_time := none, created_by := idA, participants := [],
    created_at := 0, updated_at := none }

/-- A concrete progress document with id `idC` for `sampleEvent`. -/
def sampleProgress : ProgressDoc :=
  { pid := idC, event_id := idB, user_id := some idA, distance := some 5,
    time := some 30, notes := some "easy pace", date := "2026-01-10",
    created_at := 3, updated_at := none }

/-- A concrete creation payload matching `sampleUser`. -/
def sampleCreate : UserCreate :=
  { email := "ada@example.com", first_name := "Ada", last_name := "Lovelace",
    full_name := none, firebase_uid := "firebase-uid-1", is_admin := false,
    contact_number := "1234", age_category := "18-35", city := "London",
    state := "LDN", country := "UK", bib_number := none }

/-- The authenticated caller matching `sampleUser`. -/
def sampleAuth : AuthUser :=
  { uid := "firebase-uid-1", email := "ada@example.com", is_admin := false }

/-- A store holding `sampleUser` and `sampleEvent` (empty participant set). -/
def dbReg : DB := { users := [sampleUser], events := [sampleEvent], progress := [] }

/-- `sampleEvent` with the caller's Firebase uid already registered. -/
def evRegged : EventDoc := { sampleEvent with participants := ["firebase-uid-1"] }

/-- A store where the caller is already in the participant set. -/
def dbRegged : DB := { users := [sampleUser], events := [evRegged], progress := [] }

/-- `sampleEvent` with `sampleUser`'s **internal** id in the participant set. -/
def evInternal : EventDoc := { sampleEvent with participants := [idA] }

/-- A store where the internal id is registered, with one progress entry. -/
def dbInternal : DB :=
  { users := [sampleUser], events := [evInternal], progress := [sampleProgress] }

/-- The empty store. -/
def dbEmpty : DB := { users := [], events := [], progress := [] }

/-- A progress creation body carrying no `user_id`. -/
def sampleBody : ProgressCreate :=
  { event_id := idB, user_id := none, distance := some 5, time := none,
    notes := none, date := "2026-01-10" }

/-- An event that declares a target distance of 0 km. -/
def evZeroTarget : EventDoc := { sampleEvent with target_distance := some 0 }

/-- Progress of user `u1`: 10 km in 1 minute, created at instant 1. -/
def pz1 : ProgressDoc :=
  { pid := idA, event_id := idB, user_id := some "u1", distance := some 10,
    time := some 1, notes := none, date := "2026-01-10", created_at := 1,
    updated_at := none }

/-- Progress of user `u2`: 5 km in 2 minutes, created at instant 2. -/
def pz2 : ProgressDoc :=
  { pid := idC, event_id := idB, user_id := some "u2", distance := some 5,
    time := some 2, notes := none, date := "2026-01-10", created_at := 2,
    updated_at := none }

/-- A store whose event declares a 0 km target distance. -/
def dbZeroTarget : DB := { users := [], events := [evZeroTarget], progress := [pz1, pz2] }

/-- `find?` looks through `updateFirst` when the update preserves the
predicate: the first match is the updated first match. -/
theorem find?_updateFirst (p : α → Bool) (f : α → α)
    (hpf : ∀ x, p (f x) = p x) (l : List α) :
    (updateFirst p f l).find? p = (l.find? p).map f := by
  induction l with
  | nil => rfl
  | cons x xs ih =>
    by_cases hx : p x = true
    · simp [updateFirst, hx, List.find?_cons_of_pos, hpf x, hx]
    · have hx' : p x = false := by simpa using hx
      simp [updateFirst, hx', List.find?_cons_of_neg, ih]

/-- Two predicate-preserving `updateFirst`s compose. -/
theorem updateFirst_comp (p : α → Bool) (f g : α → α)
    (hpf : ∀ x, p (f x) = p x) (l : List α) :
    updateFirst p g (updateFirst p f l) = updateFirst p (fun x => g (f x)) l := by
  induction l with
  | nil => rfl
  | cons x xs ih =>
    by_cases hx : p x = true
    · simp [updateFirst, hx, hpf x]
    · have hx' : p x = false := by simpa using hx
      simp [updateFirst, hx', ih]

/-- `updateFirst` is the identity when it fixes the first match. -/
theorem updateFirst_eq_self (p : α → Bool) (h : α → α) (l : List α) (a : α)
    (hfind : l.find? p = some a) (ha : h a = a) : updateFirst p h l = l := by
  induction l with
  | nil => simp at hfind
  | cons x xs ih =>
    by_cases hx : p x = true
    · rw [List.find?_cons_of_pos _ hx] at hfind
      have hxa : x = a := by injection hfind
      subst hxa
      simp [updateFirst, hx, ha]
    · have hx' : p x = false := by simpa using hx
      rw [List.find?_cons_of_neg _ hx] at hfind
      simp [updateFirst, hx', ih hfind]

/-- Pulling a value that was fresh before an `$addToSet` restores the list. -/
theorem pull_addToSet (v : String) (l : List String) (hv : v ∉ l) :
    pull v (addToSet v l) = l := by
  have h1 : l.filter (fun x => x ≠ v) = l := by
    apply List.filter_eq_self.mpr
    intro x hx
    have hne : x ≠ v := fun h => hv (h ▸ hx)
    simpa using hne
  simp [pull, addToSet, hv, List.filter_append, h1]
  exact fun a ha h => hv (h ▸ ha)

/-- C5: for every event and every user already in its participant set,
`register_for_event` fails with a BadRequest (400) error and returns the
store unchanged. -/
theorem register_already_registered_rejected
    (db : DB) (uid eid : String) (ev : EventDoc)
    (hv : isValidObjectId eid = true)
    (hfind : db.findEvent eid = some ev)
    (hmem : uid ∈ ev.participants) :
    register_for_event db uid eid =
      (Except.error ⟨400, "User is already registered for this event"⟩, db) := by
  simp [register_for_event, hv, hfind, hmem]

/-- C5 witness: the rejection at a concrete store. -/
theorem register_already_registered_rejected_witness :
    register_for_event dbRegged "firebase-uid-1" idB =
      (Except.error ⟨400, "User is already registered for this event"⟩, dbRegged) :=
  register_already_registered_rejected dbRegged "firebase-uid-1" idB evRegged
    (by decide) (by decide) (by decide)

/-- C2 counterexample: at a concrete store a registration succeeds, yet the
event id is mirrored into no user's `registered_events` set. -/
theorem register_no_mirror_counterexample :
    (register_for_event dbReg "firebase-uid-1" idB).1 = Except.ok () ∧
    ((register_for_event dbReg "firebase-uid-1" idB).2.users.all
      (fun u => decide (idB ∉ u.registered_events))) = true := by
  decide

/-- C2 amended: a successful registration adds the caller's uid to the
event's participant set only; the users collection — and with it every
user's registered-events set — is left unchanged (the mirror write does not
occur). -/
theorem register_event_side_only
    (db : DB) (uid eid : String) (ev : EventDoc)
    (hv : isValidObjectId eid = true)
    (hfind : db.findEvent eid = some ev)
    (hmem : uid ∉ ev.participants) :
    (register_for_event db uid eid).1 = Except.ok () ∧
    (register_for_event db uid eid).2.users = db.users ∧
    (register_for_event db uid eid).2.findEvent eid =
      some { ev with participants := ev.participants ++ [uid] } := by
  have hfind' : db.events.find? (fun e => e.eid == eid) = some ev := hfind
  have hreg : register_for_event db uid eid =
      (Except.ok (), { db with events := updateFirst (fun e => e.eid == eid) (addParticipant uid) db.events }) := by
    simp [register_for_event, hv, hfind, hmem]
  refine ⟨by rw [hreg], by rw [hreg], ?_⟩
  rw [hreg]
  show (updateFirst (fun e => e.eid == eid) (addParticipant uid) db.events).find? (fun e => e.eid == eid) = _
  rw [find?_updateFirst (fun e => e.eid == eid) (addParticipant uid) (fun x => rfl) db.events, hfind']
  simp [addParticipant, addToSet, hmem]

/-- C2 amended witness: the event-side-only effect at a concrete store. -/
theorem register_event_side_only_witness :
    (register_for_event dbReg "firebase-uid-1" idB).1 = Except.ok () ∧
    (register_for_event dbReg "firebase-uid-1" idB).2.users = dbReg.users ∧
    (register_for_event dbReg "firebase-uid-1" idB).2.findEvent idB =
      some { sampleEvent with participants := sampleEvent.participants ++ ["firebase-uid-1"] } :=
  register_event_side_only dbReg "firebase-uid-1" idB sampleEvent
    (by decide) (by decide) (by decide)

/-- C4: for a user not yet in the participant set, registering and then
unregistering succeeds and returns the store — the event's participant set
and every user's registered-events set — to exactly its prior value. -/
theorem register_unregister_roundtrip
    (db : DB) (uid eid : String) (ev : EventDoc)
    (hv : isValidObjectId eid = true)
    (hfind : db.findEvent eid = some ev)
    (hmem : uid ∉ ev.participants) :
    (register_for_event db uid eid).1 = Except.ok () ∧
    (unregister_from_event (register_for_event db uid eid).2 uid eid).1 = Except.ok () ∧
    (unregister_from_event (register_for_event db uid eid).2 uid eid).2 = db := by
  have hfind' : db.events.find? (fun e => e.eid == eid) = some ev := hfind
  have hreg : register_for_event db uid eid =
      (Except.ok (), { db with events := updateFirst (fun e => e.eid == eid) (addParticipant uid) db.events }) := by
    simp [register_for_event, hv, hfind, hmem]
  have hfind2 : (updateFirst (fun e => e.eid == eid) (addParticipant uid) db.events).find? (fun e => e.eid == eid)
      = some (addParticipant uid ev) := by
    rw [find?_updateFirst (fun e => e.eid == eid) (addParticipant uid) (fun x => rfl) db.events, hfind']
    rfl
  have hmem2 : uid ∈ (addParticipant uid ev).participants := by
    simp [addParticipant, addToSet, hmem]
  have hunreg : unregister_from_event
      { db with events := updateFirst (fun e => e.eid == eid) (addParticipant uid) db.events } uid eid =
      (Except.ok (), { db with events := updateFirst (fun e => e.eid == eid) (removeParticipant uid) (updateFirst (fun e => e.eid == eid) (addParticipant uid) db.events) }) := by
    simp [unregister_from_event, hv, DB.findEvent, hfind2, hmem2]
  have hcomp : updateFirst (fun e => e.eid == eid) (removeParticipant uid) (updateFirst (fun e => e.eid == eid) (addParticipant uid) db.events)
      = updateFirst (fun e => e.eid == eid) (fun e => removeParticipant uid (addParticipant uid e)) db.events :=
    updateFirst_comp (fun e => e.eid == eid) (addParticipant uid) (removeParticipant uid) (fun x => rfl) db.events
  have hfix : removeParticipant uid (addParticipant uid ev) = ev := by
    simp [removeParticipant, addParticipant, pull_addToSet uid ev.participants hmem]
  have hid : updateFirst (fun e => e.eid == eid) (fun e => removeParticipant uid (addParticipant uid e)) db.events = db.events :=
    updateFirst_eq_self (fun e => e.eid == eid) (fun e => removeParticipant uid (addParticipant uid e)) db.events ev hfind' hfix
  refine ⟨by rw [hreg], by rw [hreg, hunreg], ?_⟩
  rw [hreg, hunreg]
  show ({ db with events := _ } : DB) = db
  rw [hcomp, hid]

/-- C4 witness: the round trip at a concrete store. -/
theorem register_unregister_roundtrip_witness :
    (register_for_event dbReg "firebase-uid-1" idB).1 = Except.ok () ∧
    (unregister_from_event (register_for_event dbReg "firebase-uid-1" idB).2
      "firebase-uid-1" idB).1 = Except.ok () ∧
    (unregister_from_event (register_for_event dbReg "firebase-uid-1" idB).2
      "firebase-uid-1" idB).2 = dbReg :=
  register_unregister_roundtrip dbReg "firebase-uid-1" idB sampleEvent
    (by decide) (by decide) (by decide)

/-- C1: at a concrete store the claimed behaviour fails — the caller
registers successfully (the endpoint stores the Firebase uid in
`participants`), yet the same caller's subsequent `create_progress` is
rejected with 400 "not registered", because the progress endpoint
overwrites `user_id` with the internal profile id, which is not the value
the registration stored. -/
theorem progress_after_register_still_rejected :
    (register_for_event dbReg "firebase-uid-1" idB).1 = Except.ok () ∧
    (create_progress_endpoint (register_for_event dbReg "firebase-uid-1" idB).2
        sampleAuth sampleBody 5 idC).1 =
      Except.error ⟨400, "User is not registered for this event"⟩ := by
  decide

/-- C10: the progress entry persisted by the create-progress endpoint
always carries the authenticated caller's internal user id: the `user_id`
supplied in the request body is overwritten before persistence (the result
does not depend on it), so no caller can create an entry attributed to
another user. -/
theorem created_progress_owned_by_caller
    (db : DB) (caller : AuthUser) (body : ProgressCreate) (now : Nat)
    (nid : String) (x : Option String) :
    create_progress_endpoint db caller { body with user_id := x } now nid =
      create_progress_endpoint db caller body now nid ∧
    (∀ p db', create_progress_endpoint db caller body now nid = (Except.ok p, db') →
      ∃ u, db.findUserByFirebaseUid caller.uid = some u ∧ p.user_id = some u.uid) := by
  constructor
  · cases hfu : db.findUserByFirebaseUid caller.uid with
    | none => simp [create_progress_endpoint, hfu]
    | some u => cases body; simp [create_progress_endpoint, hfu]
  · intro p db' h
    cases hfu : db.findUserByFirebaseUid caller.uid with
    | none => simp [create_progress_endpoint, hfu] at h
    | some u =>
      refine ⟨u, rfl, ?_⟩
      simp only [create_progress_endpoint, hfu] at h
      simp only [ProgressService_create_progress] at h
      split at h
      · simp at h
      · split at h
        · simp at h
        · split at h
          · simp at h
          · rw [Prod.mk.injEq] at h
            obtain ⟨h1, _⟩ := h
            injection h1 with h1
            rw [← h1]
  
/-- C10 witness: the ownership fact at a concrete successful call. -/
theorem created_progress_owned_by_caller_witness :
    ∃ u, dbInternal.findUserByFirebaseUid sampleAuth.uid = some u ∧
      ProgressDoc.user_id
        { pid := idC, event_id := idB, user_id := some idA, distance := some 5,
          time := none, notes := none, date := "2026-01-10", created_at := 5,
          updated_at := none } = some u.uid :=
  (created_progress_owned_by_caller dbInternal sampleAuth sampleBody 5 idC none).2
    { pid := idC, event_id := idB, user_id := some idA, distance := some 5,
      time := none, notes := none, date := "2026-01-10", created_at := 5,
      updated_at := none }
    (create_progress_endpoint dbInternal sampleAuth sampleBody 5 idC).2
    (by decide)

/-- C6: an update patch that sets only `notes` leaves the entry's
`distance`, `time` and `date` unchanged, sets `notes` to the supplied value
and stamps `updated_at` with the fresh timestamp. -/
theorem update_notes_frame
    (db : DB) (pid0 : String) (e : ProgressDoc) (v : String) (now : Nat)
    (hv : isValidObjectId pid0 = true)
    (hfind : db.findProgress pid0 = some e)
    (hfresh : e.updated_at ≠ some now) :
    ∃ e', ProgressService_update_progress db pid0 ⟨none, none, some v, none⟩ now =
        (Except.ok (some e'), { db with progress := updateFirst (fun d => d.pid == pid0) (fun _ => e') db.progress }) ∧
      e'.distance = e.distance ∧ e'.time = e.time ∧ e'.date = e.date ∧
      e'.notes = some v ∧ e'.updated_at = some now := by
  refine ⟨applyProgressPatch e ⟨none, none, some v, none⟩ now, ?_, ?_, ?_, ?_, ?_, ?_⟩
  · have hne : applyProgressPatch e ⟨none, none, some v, none⟩ now ≠ e := by
      intro hh
      apply hfresh
      rw [← hh]
      simp [applyProgressPatch]
    simp [ProgressService_update_progress, hv, hfind, hne]
  all_goals simp [applyProgressPatch]

/-- C6 witness: the frame fact at a concrete store and entry. -/
theorem update_notes_frame_witness :
    ∃ e', ProgressService_update_progress dbInternal idC ⟨none, none, some "felt great", none⟩ 7 =
        (Except.ok (some e'), { dbInternal with progress := updateFirst (fun d => d.pid == idC) (fun _ => e') dbInternal.progress }) ∧
      e'.distance = sampleProgress.distance ∧ e'.time = sampleProgress.time ∧
      e'.date = sampleProgress.date ∧ e'.notes = some "felt great" ∧
      e'.updated_at = some 7 :=
  update_notes_frame dbInternal idC sampleProgress "felt great" 7
    (by decide) (by decide) (by decide)

/-- C9 counterexample: a malformed identifier is rejected with status 400
("Invalid event ID format"), while an absent entity yields 404 ("Event not
found") — not the same error class, against the claim. -/
theorem malformed_id_not_notfound_counterexample :
    get_event_endpoint dbEmpty "zz" = Except.error ⟨400, "Invalid event ID format"⟩ ∧
    get_event_endpoint dbEmpty idA = Except.error ⟨404, "Event not found"⟩ ∧
    (400 : Nat) ≠ 404 := by
  decide

/-- C9 amended: a malformed identifier fails with a BadRequest (400,
"Invalid ... ID format") across event, user and progress lookups — a
different class from the NotFound (404) produced for an absent entity. -/
theorem malformed_id_gives_bad_request
    (db : DB) (s t : String)
    (hs : isValidObjectId s = false)
    (ht : isValidObjectId t = true)
    (habs : db.findEvent t = none) :
    get_event_endpoint db s = Except.error ⟨400, "Invalid event ID format"⟩ ∧
    EventService_get_event db s = Except.error ⟨400, "Invalid event ID format"⟩ ∧
    UserService_get_user db s = Except.error ⟨400, "Invalid user ID format"⟩ ∧
    ProgressService_get_progress db s = Except.error ⟨400, "Invalid progress ID format"⟩ ∧
    get_event_endpoint db t = Except.error ⟨404, "Event not found"⟩ := by
  refine ⟨?_, ?_, ?_, ?_, ?_⟩ <;>
    simp [get_event_endpoint, EventService_get_event, UserService_get_user,
      ProgressService_get_progress, hs, ht, habs]

/-- C9 amended witness: the two error classes at concrete inputs. -/
theorem malformed_id_gives_bad_request_witness :
    get_event_endpoint dbEmpty "zz" = Except.error ⟨400, "Invalid event ID format"⟩ ∧
    EventService_get_event dbEmpty "zz" = Except.error ⟨400, "Invalid event ID format"⟩ ∧
    UserService_get_user dbEmpty "zz" = Except.error ⟨400, "Invalid user ID format"⟩ ∧
    ProgressService_get_progress dbEmpty "zz" = Except.error ⟨400, "Invalid progress ID format"⟩ ∧
    get_event_endpoint dbEmpty idA = Except.error ⟨404, "Event not found"⟩ :=
  malformed_id_gives_bad_request dbEmpty "zz" idA (by decide) (by decide) (by decide)

/-- C8: leaderboard determinism — two leaderboard reads of the same store
state with no intervening write return identical output (same rows, same
order, same ranks). -/
theorem leaderboard_deterministic
    (db : DB) (eid : String) (r₁ r₂ : Except HErr (List RankRow))
    (h₁ : ProgressService_get_leaderboard db eid = r₁)
    (h₂ : ProgressService_get_leaderboard db eid = r₂) :
    r₁ = r₂ := by
  rw [← h₁, ← h₂]

/-- C8 witness: determinism instantiated at a concrete store. -/
theorem leaderboard_deterministic_witness :
    ProgressService_get_leaderboard dbInternal idB =
      ProgressService_get_leaderboard dbInternal idB :=
  leaderboard_deterministic dbInternal idB _ _ rfl rfl

/-- `Nat.digitChar` of a value below 10 is a decimal digit character. -/
theorem digitChar_isDigit {d : Nat} (h : d < 10) :
    (Nat.digitChar d).isDigit = true := by
  interval_cases d <;> decide

/-- Every drawn bib string consists of exactly 4 decimal digits. -/
theorem isBibStr_toBib (n : Nat) : isBibStr (toBib n) = true := by
  have h1 : n % 10000 / 1000 < 10 := by omega
  have h2 : n % 10000 / 100 % 10 < 10 := by omega
  have h3 : n % 10000 / 10 % 10 < 10 := by omega
  have h4 : n % 10000 % 10 < 10 := by omega
  have hlen : ∀ l : List Char, (String.mk l).length = l.length := fun l => rfl
  have htl : ∀ l : List Char, (String.mk l).toList = l := fun l => rfl
  simp [isBibStr, toBib, hlen, htl, digitChar_isDigit h1, digitChar_isDigit h2,
    digitChar_isDigit h3, digitChar_isDigit h4]

/-- A successfully drawn bib number is 4 digits and fresh: no user in the
store already carries it. -/
theorem generate_unique_bib_fresh (db : DB) (seeds : List Nat) (b : String)
    (h : generate_unique_bib_number db seeds = some b) :
    isBibStr b = true ∧ ∀ u ∈ db.users, u.bib_number ≠ some b := by
  induction seeds with
  | nil => simp [generate_unique_bib_number] at h
  | cons s rest ih =>
    rw [generate_unique_bib_number] at h
    by_cases hc : db.users.any (fun u => u.bib_number == some (toBib s)) = true
    · rw [if_pos hc] at h
      exact ih h
    · rw [if_neg hc] at h
      injection h with h
      subst h
      refine ⟨isBibStr_toBib s, ?_⟩
      intro u hu heq
      apply hc
      rw [List.any_eq_true]
      exact ⟨u, hu, by simp [heq]⟩

/-- One `create_user` call preserves the participant-number invariant. -/
theorem create_user_preserves_BibsOk
    (db : DB) (u : UserCreate) (seeds : List Nat) (now : Nat) (nid : String)
    (h : BibsOk db) :
    BibsOk (UserService_create_user db u seeds now nid).2 := by
  cases hf : db.findUserByFirebaseUid u.firebase_uid with
  | some ex => simpa [UserService_create_user, hf] using h
  | none =>
    cases he : db.users.find? (fun x => x.email == u.email) with
    | some ex => simpa [UserService_create_user, hf, he] using h
    | none =>
      cases hg : generate_unique_bib_number db seeds with
      | none => simpa [UserService_create_user, hf, he, hg] using h
      | some bib =>
        obtain ⟨hfit, hfresh⟩ := generate_unique_bib_fresh db seeds bib hg
        have hres : (UserService_create_user db u seeds now nid).2 =
            { db with users := db.users ++ [mkNewUser u bib now nid] } := by
          simp [UserService_create_user, hf, he, hg]
        rw [hres]
        refine ⟨?_, ?_⟩
        · intro x hx
          rw [List.mem_append] at hx
          rcases hx with hx | hx
          · exact h.1 x hx
          · rw [List.mem_singleton] at hx
            subst hx
            simpa [mkNewUser, bibOk] using hfit
        · show ((db.users ++ [mkNewUser u bib now nid]).map (fun x => x.bib_number)).Nodup
          rw [List.map_append, List.nodup_append]
          refine ⟨h.2, by simp, ?_⟩
          intro a ha hb
          simp [mkNewUser] at hb
          rw [List.mem_map] at ha
          obtain ⟨x, hx, hax⟩ := ha
          exact hfresh x hx (by rw [hax, hb])

/-- Any sequence of `create_user` calls preserves the invariant. -/
theorem applyCreates_BibsOk (ops : List CreateOp) (db : DB) (h : BibsOk db) :
    BibsOk (applyCreates db ops) := by
  induction ops generalizing db with
  | nil => exact h
  | cons op rest ih =>
    exact ih _ (create_user_preserves_BibsOk db op.payload op.seeds op.now op.new_id h)

/-- C7: after any sequence of user-creation operations starting from an
empty user directory, every created user carries a 4-digit participant
(bib) number and no two users in the directory share one. -/
theorem bib_numbers_unique (ops : List CreateOp) (db : DB)
    (h : db.users = []) : BibsOk (applyCreates db ops) := by
  apply applyCreates_BibsOk
  constructor
  · intro x hx
    rw [h] at hx
    cases hx
  · rw [h]
    exact List.nodup_nil

/-- C7 witness: the invariant after one concrete creation. -/
theorem bib_numbers_unique_witness :
    BibsOk (applyCreates dbEmpty
      [{ payload := sampleCreate, seeds := [7], now := 0, new_id := idA }]) :=
  bib_numbers_unique
    [{ payload := sampleCreate, seeds := [7], now := 0, new_id := idA }] dbEmpty rfl

/-- Membership in the key fold: a key is collected iff it was already
present or some entry carries it. -/
theorem mem_keysOf_foldl (es : List ProgressDoc) :
    ∀ (ks : List (Option String)) (u : Option String),
    (u ∈ es.foldl (fun ks e => if e.user_id ∈ ks then ks else ks ++ [e.user_id]) ks)
      ↔ u ∈ ks ∨ ∃ e ∈ es, e.user_id = u := by
  induction es with
  | nil => intro ks u; simp
  | cons e es ih =>
    intro ks u
    rw [List.foldl_cons, ih]
    by_cases hc : e.user_id ∈ ks
    · rw [if_pos hc]
      constructor
      · rintro (h | ⟨x, hx, hxu⟩)
        · exact Or.inl h
        · exact Or.inr ⟨x, List.mem_cons_of_mem e hx, hxu⟩
      · rintro (h | ⟨x, hx, hxu⟩)
        · exact Or.inl h
        · rcases List.mem_cons.mp hx with h | h
          · exact Or.inl (by rw [← hxu, h]; exact hc)
          · exact Or.inr ⟨x, h, hxu⟩
    · rw [if_neg hc]
      constructor
      · rintro (h | ⟨x, hx, hxu⟩)
        · rcases List.mem_append.mp h with h | h
          · exact Or.inl h
          · have hu : u = e.user_id := by simpa using h
            exact Or.inr ⟨e, List.mem_cons_self e es, hu.symm⟩
        · exact Or.inr ⟨x, List.mem_cons_of_mem e hx, hxu⟩
      · rintro (h | ⟨x, hx, hxu⟩)
        · exact Or.inl (List.mem_append.mpr (Or.inl h))
        · rcases List.mem_cons.mp hx with h | h
          · exact Or.inl (List.mem_append.mpr (Or.inr (by simp [← hxu, h])))
          · exact Or.inr ⟨x, h, hxu⟩

/-- A key occurs among the grouping keys iff some entry carries it. -/
theorem mem_keysOf (es : List ProgressDoc) (u : Option String) :
    u ∈ keysOf es ↔ ∃ e ∈ es, e.user_id = u := by
  rw [keysOf, mem_keysOf_foldl]
  simp

/-- Appending one entry extends the keys exactly when its user is new. -/
theorem keysOf_append (p : List ProgressDoc) (e : ProgressDoc) :
    keysOf (p ++ [e]) =
      if e.user_id ∈ keysOf p then keysOf p else keysOf p ++ [e.user_id] := by
  rw [keysOf, keysOf, List.foldl_append]
  rfl

/-- A user absent from the keys has an empty filtered group. -/
theorem filter_eq_nil_of_not_mem_keysOf (p : List ProgressDoc) (u : Option String)
    (h : u ∉ keysOf p) :
    p.filter (fun e => e.user_id == u) = [] := by
  rw [List.filter_eq_nil_iff]
  intro e he hbe
  exact h ((mem_keysOf p u).mpr ⟨e, he, by simpa using hbe⟩)

/-- Appending an entry of a different user leaves that user's group row
unchanged. -/
theorem specRowFor_append_ne (p : List ProgressDoc) (e : ProgressDoc)
    (u : Option String) (hne : e.user_id ≠ u) :
    specRowFor (p ++ [e]) u = specRowFor p u := by
  have hb : (e.user_id == u) = false := by simpa using hne
  simp [specRowFor, List.filter_append, hb]

/-- Folding `max` with a seed equals taking `max` with the seed last. -/
theorem foldr_max_init (l : List Nat) (a : Nat) :
    l.foldr max a = max (l.foldr max 0) a := by
  induction l with
  | nil => simp
  | cons x l ih => simp [List.foldr_cons, ih, Nat.max_assoc]

/-- `max`-folding over an appended element. -/
theorem foldr_max_append (l : List Nat) (a : Nat) :
    (l ++ [a]).foldr max 0 = max (l.foldr max 0) a := by
  rw [List.foldr_append]
  simpa using foldr_max_init l a

/-- One aggregation step over already-grouped entries equals grouping the
extended entry list: the heart of the pipeline/spec equivalence. -/
theorem aggStep_spec (p : List ProgressDoc) (e : ProgressDoc) :
    aggStep (specAggregate p) e = specAggregate (p ++ [e]) := by
  by_cases hmem : e.user_id ∈ keysOf p
  · have hany : (specAggregate p).any (fun r => r.user_id == e.user_id) = true := by
      rw [specAggregate, List.any_eq_true]
      exact ⟨specRowFor p e.user_id, List.mem_map_of_mem _ hmem, by simp [specRowFor]⟩
    have hkeys : keysOf (p ++ [e]) = keysOf p := by
      rw [keysOf_append, if_pos hmem]
    rw [aggStep, if_pos hany]
    rw [specAggregate, specAggregate, hkeys, List.map_map]
    apply List.map_congr_left
    intro u hu
    by_cases hui : u = e.user_id
    · subst hui
      simp [specRowFor, List.filter_append, List.sum_append, foldr_max_append]
      exact (foldr_max_init _ _).symm
    · have hb : ((specRowFor p u).user_id == e.user_id) = false := by
        simp [specRowFor]
        exact hui
      simp only [Function.comp_apply, hb, Bool.false_eq_true, if_false]
      exact (specRowFor_append_ne p e u (fun h => hui h.symm)).symm
  · have hany : (specAggregate p).any (fun r => r.user_id == e.user_id) = false := by
      rw [specAggregate, List.any_eq_false]
      intro r hr
      rw [List.mem_map] at hr
      obtain ⟨u, hu, rfl⟩ := hr
      simp [specRowFor]
      exact fun h => hmem (h ▸ hu)
    have hkeys : keysOf (p ++ [e]) = keysOf p ++ [e.user_id] := by
      rw [keysOf_append, if_neg hmem]
    rw [aggStep, if_neg (by simp [hany])]
    rw [specAggregate, specAggregate, hkeys, List.map_append]
    congr 1
    · apply List.map_congr_left
      intro u hu
      exact (specRowFor_append_ne p e u (fun h => hmem (by rw [h]; exact hu))).symm
    · have hnil : p.filter (fun x => x.user_id == e.user_id) = [] :=
        filter_eq_nil_of_not_mem_keysOf p e.user_id hmem
      simp [specRowFor, List.filter_append, hnil]

/-- The streaming `$group` fold computes the per-user reference groups. -/
theorem foldl_aggStep_spec (es : List ProgressDoc) :
    ∀ p, es.foldl aggStep (specAggregate p) = specAggregate (p ++ es) := by
  induction es with
  | nil => intro p; simp
  | cons e rest ih =>
    intro p
    rw [List.foldl_cons, aggStep_spec p e, ih (p ++ [e])]
    simp

/-- The pipeline `$group` stage equals the specification grouping. -/
theorem aggregate_eq_specAggregate (es : List ProgressDoc) :
    aggregate es = specAggregate es := by
  have h := foldl_aggStep_spec es []
  simpa [aggregate, specAggregate, keysOf] using h

/-- C3 counterexample: at a concrete store whose existing event declares a
target distance of 0 km, the code's leaderboard ranks by total time (Python
truthiness of `target_distance`) while the claim's reference computation
ranks by total distance — the outputs differ. -/
theorem leaderboard_zero_target_counterexample :
    dbZeroTarget.findEvent idB = some evZeroTarget ∧
    ProgressService_get_leaderboard dbZeroTarget idB ≠
      Except.ok (leaderboardSpec dbZeroTarget evZeroTarget) := by
  decide

/-- C3 amended: for every existing event, the leaderboard equals the
reference computation — grouped by user id with distance and time summed
independently (missing values as 0) and maximal entry-creation timestamp as
`last_update`, ordered by the ranking key descending with ties by ascending
`last_update`, ranks 1..N — where the ranking key is total distance exactly
when the event declares a **nonzero** target distance (a declared target of
0 km ranks by total time), and total time otherwise. -/
theorem leaderboard_matches_amended_spec
    (db : DB) (eid : String) (ev : EventDoc)
    (hv : isValidObjectId eid = true)
    (hfind : db.findEvent eid = some ev) :
    ProgressService_get_leaderboard db eid =
      Except.ok (leaderboardSpecAmended db ev) := by
  have hfind' : db.events.find? (fun e => e.eid == eid) = some ev := hfind
  have heid : ev.eid = eid := by
    have h := List.find?_some hfind'
    simpa using h
  have hmain : ProgressService_get_leaderboard db eid =
      Except.ok (assignRanks 1 (if pyTruthy ev.target_distance then sortRows (fun r => r.total_distance) (aggregate (db.progress.filter (fun e => e.event_id == eid))) else sortRows (fun r => r.total_time) (aggregate (db.progress.filter (fun e => e.event_id == eid))))) := by
    simp [ProgressService_get_leaderboard, hv, hfind]
  rw [hmain]
  simp [leaderboardSpecAmended, heid, aggregate_eq_specAggregate]

/-- C3 amended witness: the equality at a concrete store and event. -/
theorem leaderboard_matches_amended_spec_witness :
    ProgressService_get_leaderboard dbInternal idB =
      Except.ok (leaderboardSpecAmended dbInternal evInternal) :=
  leaderboard_matches_amended_spec dbInternal idB evInternal (by decide) (by decide)
